import Mathlib

/-!
Verification of the AI Council discussion orchestrator.

This file gives a shallow embedding, in Lean, of the orchestration core of the
AI Council backend (NestJS/TypeScript) and proves properties of it:

* `CouncilService` (council.service.ts): `startDiscussion`, `queueIntervention`,
  `processInterventions`, `detectConsensus`, `concludeSession`;
* `MessageService.create` (message.service.ts) with its status and message-cap
  checks;
* `SessionService` status-transition validation and `update` (session.service.ts);
* `DriverFactory.createDriver` (driver.factory.ts);
* `isRetryableError` and `retryWithBackoff` (retry.util.ts);
* the roster-size rule of `CreateSessionDto` (create-session.dto.ts).

Effectful TypeScript code is embedded as explicit state passing: the persisted
session record and message list are threaded through the functions, thrown
exceptions become `Except` errors carrying the exception class name, and the
outcomes of external calls (LLM provider responses, injected persistence
failures, interventions arriving between turns) are supplied by a script that
the discussion loop consumes one entry per iteration.  Emitted events are
accumulated in a list in emission order.  JavaScript string primitives used by
the source (`toLowerCase`, `trim`, `includes`) are modelled on the character
lists of Lean strings, covering the ASCII texts the system manipulates.
-/

/-- Session status enum from the Prisma schema (PENDING, ACTIVE, COMPLETED, CANCELLED). -/
inductive SessionStatus
  | PENDING
  | ACTIVE
  | COMPLETED
  | CANCELLED
deriving DecidableEq

/-- Message role enum from the Prisma schema. -/
inductive MessageRole
  | USER
  | ASSISTANT
  | SYSTEM
deriving DecidableEq

/-- Driver type enum from the Prisma schema; UNSUPPORTED stands for any value
outside the two switch cases of DriverFactory.createDriver. -/
inductive DriverType
  | OPENAI
  | ANTHROPIC
  | UNSUPPORTED
deriving DecidableEq

/-- A thrown JavaScript exception, reduced to the data the orchestrator
branches on: the exception class name and its message. -/
structure Err where
  name : String
  message : String
deriving DecidableEq

/-- An expert of a session roster.  configValid models the outcome of the
class-validator check in startDiscussion, which requires that
plainToInstance(LLMConfig, expert.config) validates with no errors and that
the required model field is present. -/
structure Expert where
  id : Nat
  name : String
  specialty : String
  systemPrompt : String
  driverType : DriverType
  configValid : Bool
deriving DecidableEq

/-- A persisted message.  Creation order is the position in the message list;
ids and timestamps are not modelled separately. -/
structure Msg where
  expertId : Option Nat
  content : String
  role : MessageRole
  isIntervention : Bool
deriving DecidableEq

/-- A session record as read through SessionService.findOne: status, ordered
roster (insertion order), message cap and consensus flag. -/
structure Session where
  status : SessionStatus
  experts : List Expert
  maxMessages : Nat
  consensusReached : Bool
  problemStatement : String
deriving DecidableEq

/-- Configured provider credentials; the empty string models a missing or
blank environment variable. -/
structure Env where
  openaiKey : String
  anthropicKey : String
deriving DecidableEq

/-- Discussion events emitted on the event bus (discussion.events.ts).  The
session id, identical on every event of one run, is left implicit. -/
inductive DiscussionEvent
  | messageCreated (message : Msg)
  | consensusReached (finalMessage : Msg)
  | sessionEnded (consensusReached : Bool) (reason : String) (messageCount : Nat)
  | errorEvent (message : String) (expertId : Option Nat)
  | expertTurnStart (expertId : Nat) (expertName : String) (turnNumber : Nat)
deriving DecidableEq

/- ## String primitives

Models of the JavaScript string operations the source uses, defined on the
character list of a Lean string so that they compute by kernel reduction. -/

/-- listStartsWith s sub is true when sub is an initial segment of s. -/
def listStartsWith : List Char → List Char → Bool
  | _, [] => true
  | [], _ :: _ => false
  | c :: cs, d :: ds => c == d && listStartsWith cs ds

/-- listContains s sub is true when sub occurs contiguously inside s; this is
the semantics of String.prototype.includes. -/
def listContains (s sub : List Char) : Bool :=
  match s with
  | [] => listStartsWith [] sub
  | _ :: rest => listStartsWith s sub || listContains rest sub

/-- Model of JavaScript String.prototype.includes. -/
def strIncludes (s sub : String) : Bool :=
  listContains s.data sub.data

/-- Model of JavaScript String.prototype.toLowerCase, for ASCII content. -/
def strToLower (s : String) : String :=
  ⟨s.data.map Char.toLower⟩

/-- JavaScript whitespace characters relevant to ASCII input. -/
def isJsWhitespace (c : Char) : Bool :=
  c == ' ' || c == '\t' || c == '\n' || c == '\r'

/-- Model of JavaScript String.prototype.trim on character lists. -/
def trimChars (l : List Char) : List Char :=
  ((l.dropWhile isJsWhitespace).reverse.dropWhile isJsWhitespace).reverse

/-- Model of JavaScript String.prototype.trim. -/
def strTrim (s : String) : String :=
  ⟨trimChars s.data⟩

theorem listStartsWith_iff (s sub : List Char) :
    listStartsWith s sub = true ↔ ∃ post, s = sub ++ post := by
  induction sub generalizing s with
  | nil =>
    simp [listStartsWith]
  | cons d ds ih =>
    cases s with
    | nil =>
      simp [listStartsWith]
    | cons c cs =>
      simp only [listStartsWith, Bool.and_eq_true, beq_iff_eq, ih]
      constructor
      · rintro ⟨rfl, post, rfl⟩
        exact ⟨post, rfl⟩
      · rintro ⟨post, hpost⟩
        rw [List.cons_append] at hpost
        obtain ⟨h1, h2⟩ := List.cons.injEq .. ▸ hpost
        exact ⟨h1, post, h2⟩

theorem listContains_iff (s sub : List Char) :
    listContains s sub = true ↔ ∃ pre post, s = pre ++ sub ++ post := by
  induction s with
  | nil =>
    simp only [listContains, listStartsWith_iff]
    constructor
    · rintro ⟨post, hpost⟩
      exact ⟨[], post, by simpa using hpost⟩
    · rintro ⟨pre, post, hpost⟩
      rcases List.append_eq_nil.mp hpost.symm with ⟨h2, h4⟩
      rcases List.append_eq_nil.mp h2 with ⟨h1, h3⟩
      exact ⟨[], by simp [h3]⟩
  | cons c cs ih =>
    simp only [listContains, Bool.or_eq_true, listStartsWith_iff, ih]
    constructor
    · rintro (⟨post, hpost⟩ | ⟨pre, post, hpost⟩)
      · exact ⟨[], post, by simpa using hpost⟩
      · exact ⟨c :: pre, post, by simp [hpost]⟩
    · rintro ⟨pre, post, hpost⟩
      cases pre with
      | nil =>
        exact Or.inl ⟨post, by simpa using hpost⟩
      | cons p ps =>
        right
        rw [List.cons_append, List.cons_append] at hpost
        obtain ⟨h1, h2⟩ := List.cons.injEq .. ▸ hpost
        exact ⟨ps, post, by simpa using h2⟩

/- ## Consensus detection (CouncilService.detectConsensus) -/

/-- The fixed keyword list of CouncilService.detectConsensus. -/
def consensusKeywords : List String :=
  ["i agree", "consensus reached", "we agree", "i concur", "agreed",
   "we have consensus", "we reached consensus", "in agreement"]

/-- Model of CouncilService.detectConsensus: lower-case the content and test
whether any keyword occurs as a substring. -/
def detectConsensus (messageContent : String) : Bool :=
  consensusKeywords.any (fun keyword => strIncludes (strToLower messageContent) keyword)

/-- C4: detectConsensus text is true iff the lower-cased text contains one of
the 8 fixed phrases as a contiguous substring; it is false on any text
containing none of them, in particular on "that sounds reasonable", and true
on "I agree completely". -/
theorem detectConsensus_characterization :
    (∀ text : String, detectConsensus text = true ↔
      ∃ p ∈ (["i agree", "consensus reached", "we agree", "i concur", "agreed",
              "we have consensus", "we reached consensus", "in agreement"] : List String),
        ∃ pre post, (strToLower text).data = pre ++ p.data ++ post)
    ∧ detectConsensus "that sounds reasonable" = false
    ∧ detectConsensus "I agree completely" = true := by
  refine ⟨fun text => ?_, by decide, by decide⟩
  simp only [detectConsensus, consensusKeywords, List.any_eq_true, strIncludes,
    listContains_iff]

/- ## MessageService.create (message.service.ts)

The source validates that the session exists and is ACTIVE, then inside a
serializable transaction re-checks the message count against the session cap
before inserting.  Prisma failures of the insert are surfaced as an
InternalServerErrorException; dbFail injects such a failure.  The session
existence and expert-membership lookups always succeed in the orchestrated
runs modelled here and are not represented. -/

/-- Model of MessageService.create: status check, then cap check, then the
insert (which fails when dbFail is set).  On success the message is appended
to the session message list. -/
def messageCreate (status : SessionStatus) (maxMessages : Nat)
    (msgs : List Msg) (m : Msg) (dbFail : Bool) : Except Err (List Msg) :=
  if status ≠ SessionStatus.ACTIVE then
    .error ⟨"BadRequestException", "Cannot add messages to session: session must be ACTIVE"⟩
  else if maxMessages ≤ msgs.length then
    .error ⟨"BadRequestException", "Session has reached maximum message limit"⟩
  else if dbFail then
    .error ⟨"InternalServerErrorException", "Failed to create message"⟩
  else
    .ok (msgs ++ [m])

/- ## SessionService (session.service.ts) -/

/-- Model of SessionService.validateStatusTransition: the session state
machine PENDING to ACTIVE or CANCELLED, ACTIVE to COMPLETED or CANCELLED,
COMPLETED and CANCELLED terminal; identical statuses always allowed. -/
def validateStatusTransition (cur new : SessionStatus) : Bool :=
  if cur = new then true
  else
    match cur with
    | SessionStatus.PENDING =>
        new = SessionStatus.ACTIVE || new = SessionStatus.CANCELLED
    | SessionStatus.ACTIVE =>
        new = SessionStatus.COMPLETED || new = SessionStatus.CANCELLED
    | SessionStatus.COMPLETED => false
    | SessionStatus.CANCELLED => false

/-- The persisted mutable part of a session record: status and consensus flag. -/
structure DbSession where
  status : SessionStatus
  consensusReached : Bool
deriving DecidableEq

/-- Model of SessionService.update restricted to the fields the orchestrator
writes: validates the status transition against the current record, then
applies the write; dbFail injects a database failure of the update itself. -/
def sessionUpdate (db : DbSession) (newStatus : Option SessionStatus)
    (newConsensus : Option Bool) (dbFail : Bool) : Except Err DbSession :=
  match newStatus with
  | some st =>
    if ¬ validateStatusTransition db.status st then
      .error ⟨"BadRequestException", "Invalid status transition"⟩
    else if dbFail then
      .error ⟨"InternalServerErrorException", "Failed to update session"⟩
    else
      .ok ⟨st, newConsensus.getD db.consensusReached⟩
  | none =>
    if dbFail then
      .error ⟨"InternalServerErrorException", "Failed to update session"⟩
    else
      .ok ⟨db.status, newConsensus.getD db.consensusReached⟩

/- ## DriverFactory.createDriver (driver.factory.ts) -/

/-- Model of DriverFactory.createDriver: requires a non-blank API key for the
provider of the given driver type; unknown driver types are rejected.  The
constructed driver itself carries no data relevant to the claims. -/
def createDriver (env : Env) (t : DriverType) : Except Err Unit :=
  match t with
  | DriverType.OPENAI =>
    if strTrim env.openaiKey = "" then
      .error ⟨"LLMAuthenticationException", "OpenAI API key not configured"⟩
    else
      .ok ()
  | DriverType.ANTHROPIC =>
    if strTrim env.anthropicKey = "" then
      .error ⟨"LLMAuthenticationException", "Anthropic API key not configured"⟩
    else
      .ok ()
  | DriverType.UNSUPPORTED =>
    .error ⟨"LLMInvalidRequestException", "Unsupported driver type"⟩

/- ## Intervention queueing (CouncilService.queueIntervention) -/

/-- A queued user intervention awaiting injection as a USER message. -/
structure InterventionRecord where
  content : String
  userId : Option Nat
deriving DecidableEq

/-- Model of CouncilService.queueIntervention for an existing session: when
the session is not ACTIVE the call logs a warning and returns with the queue
unchanged (the intervention is dropped, nothing is thrown: the model is a
total function); when it is ACTIVE the intervention is appended at the tail
of the session FIFO queue and the call returns at once, independent of any
drain. -/
def queueIntervention (sessionStatus : SessionStatus)
    (queue : List InterventionRecord) (content : String)
    (userId : Option Nat) : List InterventionRecord :=
  if sessionStatus ≠ SessionStatus.ACTIVE then
    queue
  else
    queue ++ [⟨content, userId⟩]

/- ## Backoff retrier (retry.util.ts) -/

/-- The data of a failed operation the retrier classifies on: the HTTP status
(the first defined among error.status, error.statusCode and
error.response.status; JavaScript treats a zero status as absent, which
classifies identically) and the network error code. -/
structure RetryErr where
  status : Option Nat
  code : Option String
deriving DecidableEq

/-- The retryable network error codes of retry.util.ts. -/
def retryableCodes : List String :=
  ["ETIMEDOUT", "ESOCKETTIMEDOUT", "ECONNRESET", "ECONNREFUSED", "EAI_AGAIN", "ENOTFOUND"]

/-- Model of isRetryableError: retry on status 429, 408 or 5xx, or on one of
the retryable network error codes. -/
def isRetryableError (e : RetryErr) : Bool :=
  (match e.status with
   | some s => s == 429 || s == 408 || (500 ≤ s && s < 600)
   | none => false)
  ||
  (match e.code with
   | some c => retryableCodes.contains c
   | none => false)

/-- One scripted invocation of the retried operation: its outcome, and
whether the elapsed-time budget check after a failure of this attempt finds
maxTotalMs exceeded (the wall clock is external input to the model). -/
structure AttemptRec (A : Type) where
  outcome : Except RetryErr A
  elapsedExceeded : Bool

/-- Result of the retrier: the value or the propagated error, together with
the number of invocations of the operation that were performed. -/
inductive RetryResult (A : Type)
  | ok (v : A) (attemptsUsed : Nat)
  | err (e : RetryErr) (attemptsUsed : Nat)
  | outOfScript
deriving DecidableEq, Inhabited

/-- Model of the loop of retryWithBackoff: attempt counts from zero up to
maxRetries; a failed attempt stops at once on a non-retryable error, on
attempt exhaustion, or on an exceeded time budget, and otherwise sleeps and
retries.  The delay computation changes no control flow and is not
modelled. -/
def retryLoop (maxRetries : Nat) : Nat → List (AttemptRec A) → RetryResult A
  | _, [] => .outOfScript
  | attempt, r :: rest =>
    match r.outcome with
    | .ok v => .ok v (attempt + 1)
    | .error e =>
      if ¬ isRetryableError e then
        .err e (attempt + 1)
      else if maxRetries ≤ attempt then
        .err e (attempt + 1)
      else if r.elapsedExceeded then
        .err e (attempt + 1)
      else
        retryLoop maxRetries (attempt + 1) rest

/-- Model of retryWithBackoff with the default maxRetries of 6. -/
def retryWithBackoff (attempts : List (AttemptRec A)) : RetryResult A :=
  retryLoop 6 0 attempts

/- ## The discussion orchestrator (CouncilService)

The discussion loop of startDiscussion is driven by external inputs: LLM
provider responses, database failures and interventions arriving between
turns.  A run is modelled against a script supplying these inputs, one entry
per loop iteration. -/

/-- An intervention submitted while the discussion runs; dbFail injects a
persistence failure of the USER-message insert that drains it. -/
structure InterventionSubmission where
  content : String
  userId : Option Nat
  dbFail : Bool
deriving DecidableEq

/-- Outcome of one provider chat call: the response content, or a thrown
LLM exception. -/
inductive LLMOutcome
  | success (content : String)
  | failure (e : Err)
deriving DecidableEq

/-- External inputs consumed by one iteration of the discussion loop. -/
structure TurnInput where
  arrivals : List InterventionSubmission
  llm : LLMOutcome
  createFails : Bool
deriving DecidableEq

/-- External inputs of a whole run: per-iteration inputs plus injected
failures of the finalize write and of the cancel write of the error path. -/
structure Script where
  turns : List TurnInput
  finalizeFails : Bool
  cancelFails : Bool
deriving DecidableEq

/-- Model of CouncilService.processInterventions: each queued item is
persisted as a USER message with the intervention flag and a MessageCreated
event is emitted; a failed insert is caught, an Error event is emitted, and
the drain continues with the next item.  The queue is cleared afterwards
(its contents are exactly the drained list). -/
def processInterventions (dbStatus : SessionStatus) (maxMessages : Nat) :
    List InterventionSubmission → List Msg → List DiscussionEvent →
    List Msg × List DiscussionEvent
  | [], msgs, events => (msgs, events)
  | iv :: rest, msgs, events =>
    match messageCreate dbStatus maxMessages msgs ⟨none, iv.content, MessageRole.USER, true⟩ iv.dbFail with
    | .ok msgs2 =>
      processInterventions dbStatus maxMessages rest msgs2
        (events ++ [DiscussionEvent.messageCreated ⟨none, iv.content, MessageRole.USER, true⟩])
    | .error e =>
      processInterventions dbStatus maxMessages rest msgs
        (events ++ [DiscussionEvent.errorEvent e.message none])

/-- The transient classification of the per-turn catch in startDiscussion:
rate limit, timeout and service unavailability are transient; every other
exception is fatal. -/
def isTransientLLMError (errName : String) : Bool :=
  errName == "LLMRateLimitException" ||
  errName == "LLMTimeoutException" ||
  errName == "LLMServiceException"

/-- Placeholder expert for the total indexing function; round-robin
selection never reaches it on a non-empty roster. -/
def defaultExpert : Expert :=
  ⟨0, "", "", "", DriverType.UNSUPPORTED, false⟩

/-- The round-robin expert selection of startDiscussion:
experts[currentExpertIndex % experts.length]. -/
def expertAt (sess : Session) (k : Nat) : Expert :=
  sess.experts.getD (k % sess.experts.length) defaultExpert

/-- In-flight state of one discussion run: the persisted session record, the
persisted messages, the emitted events and the turn counter
(currentExpertIndex). -/
structure LoopSt where
  db : DbSession
  msgs : List Msg
  events : List DiscussionEvent
  idx : Nat
deriving DecidableEq

/-- How the discussion loop stopped: a break (consensus or message limit,
with the final value of the consensusReached variable), an exception thrown
out of the loop body, or exhaustion of the modelling script. -/
inductive LoopExit
  | ended (consensus : Bool)
  | aborted (e : Err)
  | scriptOut
deriving DecidableEq

/-- Model of the main discussion loop of startDiscussion.  Each iteration
drains the intervention queue, breaks when the message count has reached the
cap, selects the round-robin expert, emits ExpertTurnStart, and performs the
guarded turn body: driver creation, the scripted provider call, the empty
response skip, message creation, and consensus detection.  The catch around
the turn body emits an expert-scoped Error event and continues on a
transient error and rethrows on a fatal one. -/
def discussionLoop (env : Env) (sess : Session) :
    List TurnInput → LoopSt → LoopSt × LoopExit
  | [], st => (st, LoopExit.scriptOut)
  | t :: rest, st =>
    let drained := processInterventions st.db.status sess.maxMessages t.arrivals st.msgs st.events
    let msgs1 := drained.1
    let evs1 := drained.2
    if sess.maxMessages ≤ msgs1.length then
      ({ st with msgs := msgs1, events := evs1 }, LoopExit.ended false)
    else
      let expert := expertAt sess st.idx
      let evs2 := evs1 ++ [DiscussionEvent.expertTurnStart expert.id expert.name (st.idx + 1)]
      match createDriver env expert.driverType with
      | .error e =>
        let evs3 := evs2 ++ [DiscussionEvent.errorEvent e.message (some expert.id)]
        if isTransientLLMError e.name then
          discussionLoop env sess rest { st with msgs := msgs1, events := evs3, idx := st.idx + 1 }
        else
          ({ st with msgs := msgs1, events := evs3 }, LoopExit.aborted e)
      | .ok _ =>
        match t.llm with
        | LLMOutcome.failure e =>
          let evs3 := evs2 ++ [DiscussionEvent.errorEvent e.message (some expert.id)]
          if isTransientLLMError e.name then
            discussionLoop env sess rest { st with msgs := msgs1, events := evs3, idx := st.idx + 1 }
          else
            ({ st with msgs := msgs1, events := evs3 }, LoopExit.aborted e)
        | LLMOutcome.success content =>
          let trimmed := strTrim content
          if trimmed = "" then
            discussionLoop env sess rest { st with msgs := msgs1, events := evs2, idx := st.idx + 1 }
          else
            let m : Msg := ⟨some expert.id, trimmed, MessageRole.ASSISTANT, false⟩
            match messageCreate st.db.status sess.maxMessages msgs1 m t.createFails with
            | .error e =>
              let evs3 := evs2 ++ [DiscussionEvent.errorEvent e.message (some expert.id)]
              if isTransientLLMError e.name then
                discussionLoop env sess rest { st with msgs := msgs1, events := evs3, idx := st.idx + 1 }
              else
                ({ st with msgs := msgs1, events := evs3 }, LoopExit.aborted e)
            | .ok msgs2 =>
              let evs3 := evs2 ++ [DiscussionEvent.messageCreated m]
              if detectConsensus trimmed then
                let evs4 := evs3 ++ [DiscussionEvent.consensusReached m]
                ({ st with msgs := msgs2, events := evs4 }, LoopExit.ended true)
              else
                discussionLoop env sess rest { st with msgs := msgs2, events := evs3, idx := st.idx + 1 }

/-- A BadRequestException with the given message. -/
def validationErr (msg : String) : Err :=
  ⟨"BadRequestException", msg⟩

/-- The per-expert pre-validation loop of startDiscussion: the first expert
with an invalid config, or whose driver cannot be constructed, yields a
descriptive BadRequestException naming that expert. -/
def findExpertValidationErr (env : Env) : List Expert → Option Err
  | [] => none
  | ex :: rest =>
    if ¬ ex.configValid then
      some (validationErr ("Expert " ++ ex.name ++ " has invalid config. Missing or invalid required field: model"))
    else
      match createDriver env ex.driverType with
      | .error e =>
        some (validationErr ("Expert " ++ ex.name ++ " cannot be initialized: " ++ e.message))
      | .ok _ => findExpertValidationErr env rest

/-- The pre-validation phase of startDiscussion performed inside the try
block: reject an empty roster, then validate every expert in roster order. -/
def startValidation (env : Env) (sess : Session) : Option Err :=
  if sess.experts.length = 0 then
    some (validationErr "Cannot start discussion for session with no experts. Session must have at least one expert.")
  else
    findExpertValidationErr env sess.experts

/-- The cancel write of the outer catch of startDiscussion: the update to
CANCELLED is attempted and its own failure is swallowed (logged only).
Returns the resulting record and the successful status writes. -/
def tryCancelStatus (db : DbSession) (dbFail : Bool) : DbSession × List SessionStatus :=
  match sessionUpdate db (some SessionStatus.CANCELLED) none dbFail with
  | .ok db2 => (db2, [SessionStatus.CANCELLED])
  | .error _ => (db, [])

/-- Model of CouncilService.concludeSession: write COMPLETED together with
the consensus flag; a failure of this write is caught, logged and turned
into an Error event without being rethrown.  Returns the resulting record,
the events to emit, and the successful status writes. -/
def concludeSession (db : DbSession) (consensus : Bool) (dbFail : Bool) :
    DbSession × List DiscussionEvent × List SessionStatus :=
  match sessionUpdate db (some SessionStatus.COMPLETED) (some consensus) dbFail with
  | .ok db2 => (db2, [], [SessionStatus.COMPLETED])
  | .error e => (db, [DiscussionEvent.errorEvent e.message none], [])

/-- Result of a startDiscussion call: the returned session snapshot or the
thrown error. -/
inductive StartOutcome
  | ok (snapshot : Session)
  | err (e : Err)
  | scriptOut
deriving DecidableEq

/-- Observable outcome of a whole startDiscussion run: the returned value or
thrown error, the final persisted session record and message list, the
emitted events in order, the successful session status writes in order, and
the final value of the loop consensusReached variable when the loop exited
through a break (none when the run failed validation, aborted, or ran out
of script). -/
structure RunResult where
  outcome : StartOutcome
  db : DbSession
  msgs : List Msg
  events : List DiscussionEvent
  statusWrites : List SessionStatus
  loopConsensus : Option Bool
deriving DecidableEq

/-- Model of CouncilService.startDiscussion.  A non-PENDING session is
rejected before the try block: nothing is written and no event is emitted.
Validation failures inside the try block (empty roster, invalid expert
config, unconstructible driver) are thrown and reach the outer catch, which
emits a session-scoped Error event, attempts to cancel the session and
rethrows.  Otherwise the session is set ACTIVE and the discussion loop runs;
a normal exit concludes the session (finalize failure swallowed), emits
SessionEnded and returns the freshly loaded session snapshot, while an abort
takes the outer catch path. -/
def startDiscussion (env : Env) (sess : Session) (msgs0 : List Msg)
    (script : Script) : RunResult :=
  if sess.status ≠ SessionStatus.PENDING then
    { outcome := StartOutcome.err
        (validationErr "Cannot start discussion for session with this status. Session must be in pending status."),
      db := ⟨sess.status, sess.consensusReached⟩, msgs := msgs0, events := [],
      statusWrites := [], loopConsensus := none }
  else
    let db0 : DbSession := ⟨sess.status, sess.consensusReached⟩
    match startValidation env sess with
    | some e =>
      let cancelled := tryCancelStatus db0 script.cancelFails
      { outcome := StartOutcome.err e, db := cancelled.1, msgs := msgs0,
        events := [DiscussionEvent.errorEvent e.message none],
        statusWrites := cancelled.2, loopConsensus := none }
    | none =>
      match sessionUpdate db0 (some SessionStatus.ACTIVE) none false with
      | .error e =>
        let cancelled := tryCancelStatus db0 script.cancelFails
        { outcome := StartOutcome.err e, db := cancelled.1, msgs := msgs0,
          events := [DiscussionEvent.errorEvent e.message none],
          statusWrites := cancelled.2, loopConsensus := none }
      | .ok db1 =>
        match discussionLoop env sess script.turns ⟨db1, msgs0, [], 0⟩ with
        | (st, LoopExit.scriptOut) =>
          { outcome := StartOutcome.scriptOut, db := st.db, msgs := st.msgs,
            events := st.events, statusWrites := [SessionStatus.ACTIVE],
            loopConsensus := none }
        | (st, LoopExit.aborted e) =>
          let cancelled := tryCancelStatus st.db script.cancelFails
          { outcome := StartOutcome.err e, db := cancelled.1, msgs := st.msgs,
            events := st.events ++ [DiscussionEvent.errorEvent e.message none],
            statusWrites := SessionStatus.ACTIVE :: cancelled.2,
            loopConsensus := none }
        | (st, LoopExit.ended consensus) =>
          let concluded := concludeSession st.db consensus script.finalizeFails
          let finalCount := st.msgs.length
          let reason :=
            if consensus then "consensus"
            else if sess.maxMessages ≤ finalCount then "max_messages"
            else "cancelled"
          { outcome := StartOutcome.ok
              { sess with status := concluded.1.status,
                          consensusReached := concluded.1.consensusReached },
            db := concluded.1, msgs := st.msgs,
            events := st.events ++ concluded.2.1 ++
              [DiscussionEvent.sessionEnded consensus reason finalCount],
            statusWrites := SessionStatus.ACTIVE :: concluded.2.2,
            loopConsensus := some consensus }

/- ## Session creation roster rule (create-session.dto.ts) -/

/-- Model of the roster-size rule of CreateSessionDto: class-validator
ArrayMinSize(2) and ArrayMaxSize(10) on expertIds. -/
def createSessionRosterSizeValid (expertIds : List Nat) : Bool :=
  decide (2 ≤ expertIds.length) && decide (expertIds.length ≤ 10)

/- ## Event observations -/

/-- Recognizer for SessionEnded events. -/
def isSessionEndedEvent : DiscussionEvent → Bool
  | DiscussionEvent.sessionEnded _ _ _ => true
  | _ => false

/-- Recognizer for Error events. -/
def isErrorEvent : DiscussionEvent → Bool
  | DiscussionEvent.errorEvent _ _ => true
  | _ => false

/-- Recognizer for MessageCreated events. -/
def isMessageCreatedEvent : DiscussionEvent → Bool
  | DiscussionEvent.messageCreated _ => true
  | _ => false

/-- The ExpertTurnStart events of a trace, as (expertId, expertName,
turnNumber) triples in emission order. -/
def turnStartsOf (evs : List DiscussionEvent) : List (Nat × String × Nat) :=
  evs.filterMap (fun ev =>
    match ev with
    | DiscussionEvent.expertTurnStart i n t => some (i, n, t)
    | _ => none)

/- ## Helper lemmas about the service models -/

theorem messageCreate_ok_elim {status : SessionStatus} {mx : Nat} {ms ms2 : List Msg}
    {m : Msg} {f : Bool} (h : messageCreate status mx ms m f = Except.ok ms2) :
    ms2 = ms ++ [m] ∧ ms.length < mx := by
  unfold messageCreate at h
  split_ifs at h with h1 h2 h3
  refine ⟨?_, by omega⟩
  injection h with h4
  exact h4.symm

theorem processInterventions_msgs_len {d : SessionStatus} {mx : Nat}
    (q : List InterventionSubmission) (ms : List Msg) (es : List DiscussionEvent)
    (h : ms.length ≤ mx) :
    ((processInterventions d mx q ms es).1).length ≤ mx := by
  induction q generalizing ms es with
  | nil => simpa [processInterventions] using h
  | cons iv rest ih =>
    cases hc : messageCreate d mx ms ⟨none, iv.content, MessageRole.USER, true⟩ iv.dbFail with
    | ok ms2 =>
      obtain ⟨hms2, hlt⟩ := messageCreate_ok_elim hc
      subst hms2
      simp only [processInterventions, hc]
      refine ih _ _ ?_
      simp only [List.length_append, List.length_cons, List.length_nil]
      omega
    | error e =>
      simp only [processInterventions, hc]
      exact ih _ _ h

theorem processInterventions_msgs_mem {d : SessionStatus} {mx : Nat}
    (q : List InterventionSubmission) (ms : List Msg) (es : List DiscussionEvent)
    {m : Msg} (hm : m ∈ (processInterventions d mx q ms es).1) :
    m ∈ ms ∨ m.role = MessageRole.USER := by
  induction q generalizing ms es with
  | nil =>
    left
    simpa [processInterventions] using hm
  | cons iv rest ih =>
    cases hc : messageCreate d mx ms ⟨none, iv.content, MessageRole.USER, true⟩ iv.dbFail with
    | ok ms2 =>
      obtain ⟨hms2, _⟩ := messageCreate_ok_elim hc
      subst hms2
      simp only [processInterventions, hc] at hm
      rcases ih _ _ hm with hin | hrole
      · rcases List.mem_append.mp hin with hin2 | hin2
        · exact Or.inl hin2
        · right
          simp only [List.mem_singleton] at hin2
          subst hin2
          rfl
      · exact Or.inr hrole
    | error e =>
      simp only [processInterventions, hc] at hm
      exact ih _ _ hm

theorem turnStartsOf_append (a b : List DiscussionEvent) :
    turnStartsOf (a ++ b) = turnStartsOf a ++ turnStartsOf b := by
  simp [turnStartsOf, List.filterMap_append]

@[simp]
theorem turnStartsOf_singleton_turnStart (i : Nat) (n : String) (t : Nat) :
    turnStartsOf [DiscussionEvent.expertTurnStart i n t] = [(i, n, t)] := rfl

@[simp]
theorem turnStartsOf_singleton_err (s : String) (eid : Option Nat) :
    turnStartsOf [DiscussionEvent.errorEvent s eid] = [] := rfl

@[simp]
theorem turnStartsOf_singleton_mc (m : Msg) :
    turnStartsOf [DiscussionEvent.messageCreated m] = [] := rfl

@[simp]
theorem turnStartsOf_singleton_cons (m : Msg) :
    turnStartsOf [DiscussionEvent.consensusReached m] = [] := rfl

@[simp]
theorem turnStartsOf_singleton_ended (c : Bool) (r : String) (n : Nat) :
    turnStartsOf [DiscussionEvent.sessionEnded c r n] = [] := rfl

theorem processInterventions_events_turnStarts {d : SessionStatus} {mx : Nat}
    (q : List InterventionSubmission) (ms : List Msg) (es : List DiscussionEvent) :
    turnStartsOf (processInterventions d mx q ms es).2 = turnStartsOf es := by
  induction q generalizing ms es with
  | nil => simp [processInterventions]
  | cons iv rest ih =>
    cases hc : messageCreate d mx ms ⟨none, iv.content, MessageRole.USER, true⟩ iv.dbFail with
    | ok ms2 =>
      simp only [processInterventions, hc]
      rw [ih, turnStartsOf_append]
      simp
    | error e =>
      simp only [processInterventions, hc]
      rw [ih, turnStartsOf_append]
      simp

theorem processInterventions_events_sessionEnded {d : SessionStatus} {mx : Nat}
    (q : List InterventionSubmission) (ms : List Msg) (es : List DiscussionEvent) :
    ((processInterventions d mx q ms es).2).filter isSessionEndedEvent
      = es.filter isSessionEndedEvent := by
  induction q generalizing ms es with
  | nil => simp [processInterventions]
  | cons iv rest ih =>
    cases hc : messageCreate d mx ms ⟨none, iv.content, MessageRole.USER, true⟩ iv.dbFail with
    | ok ms2 =>
      simp only [processInterventions, hc]
      rw [ih, List.filter_append]
      simp [isSessionEndedEvent]
    | error e =>
      simp only [processInterventions, hc]
      rw [ih, List.filter_append]
      simp [isSessionEndedEvent]

/- ## Invariants of the discussion loop -/

theorem discussionLoop_db (env : Env) (sess : Session) (ts : List TurnInput) (st : LoopSt) :
    ((discussionLoop env sess ts st).1).db = st.db := by
  induction ts generalizing st with
  | nil => rfl
  | cons t rest ih =>
    simp only [discussionLoop]
    repeat' split
    all_goals first | rfl | exact ih _

theorem discussionLoop_msgs_len (env : Env) (sess : Session) (ts : List TurnInput)
    (st : LoopSt) (h : st.msgs.length ≤ sess.maxMessages) :
    ((discussionLoop env sess ts st).1).msgs.length ≤ sess.maxMessages := by
  induction ts generalizing st with
  | nil => exact h
  | cons t rest ih =>
    have hpi := @processInterventions_msgs_len st.db.status
      sess.maxMessages t.arrivals st.msgs st.events h
    simp only [discussionLoop]
    split
    · exact hpi
    · split
      · split
        · exact ih _ hpi
        · exact hpi
      · split
        · split
          · exact ih _ hpi
          · exact hpi
        · split
          · exact ih _ hpi
          · split
            · split
              · exact ih _ hpi
              · exact hpi
            · rename_i msgs2 heq
              obtain ⟨hm2, hlt⟩ := messageCreate_ok_elim heq
              subst hm2
              split
              · simp only [List.length_append, List.length_cons, List.length_nil]
                omega
              · refine ih _ ?_
                simp only [List.length_append, List.length_cons, List.length_nil]
                omega

theorem discussionLoop_events_sessionEnded (env : Env) (sess : Session)
    (ts : List TurnInput) (st : LoopSt) :
    (((discussionLoop env sess ts st).1).events).filter isSessionEndedEvent
      = st.events.filter isSessionEndedEvent := by
  induction ts generalizing st with
  | nil => rfl
  | cons t rest ih =>
    have hpiE := @processInterventions_events_sessionEnded st.db.status
      sess.maxMessages t.arrivals st.msgs st.events
    simp only [discussionLoop]
    split
    · exact hpiE
    · split
      · split
        · rw [ih _]
          simp [List.filter_append, hpiE, isSessionEndedEvent]
        · simp [List.filter_append, hpiE, isSessionEndedEvent]
      · split
        · split
          · rw [ih _]
            simp [List.filter_append, hpiE, isSessionEndedEvent]
          · simp [List.filter_append, hpiE, isSessionEndedEvent]
        · split
          · rw [ih _]
            simp [List.filter_append, hpiE, isSessionEndedEvent]
          · split
            · split
              · rw [ih _]
                simp [List.filter_append, hpiE, isSessionEndedEvent]
              · simp [List.filter_append, hpiE, isSessionEndedEvent]
            · split
              · simp [List.filter_append, hpiE, isSessionEndedEvent]
              · rw [ih _]
                simp [List.filter_append, hpiE, isSessionEndedEvent]

/-- The expected ExpertTurnStart trace after j emitted turns: turn k
(zero-based) belongs to expert roster[k mod N] and carries turnNumber k+1. -/
def roundRobinStarts (sess : Session) (j : Nat) : List (Nat × String × Nat) :=
  (List.range j).map (fun k => ((expertAt sess k).id, (expertAt sess k).name, k + 1))

theorem roundRobinStarts_succ (sess : Session) (j : Nat) :
    roundRobinStarts sess (j + 1)
      = roundRobinStarts sess j ++ [((expertAt sess j).id, (expertAt sess j).name, j + 1)] := by
  simp [roundRobinStarts, List.range_succ]

theorem discussionLoop_turnStarts (env : Env) (sess : Session) (ts : List TurnInput)
    (st : LoopSt) (h : turnStartsOf st.events = roundRobinStarts sess st.idx) :
    ∃ j, turnStartsOf ((discussionLoop env sess ts st).1).events = roundRobinStarts sess j := by
  induction ts generalizing st with
  | nil => exact ⟨st.idx, h⟩
  | cons t rest ih =>
    have hpiT := @processInterventions_events_turnStarts st.db.status
      sess.maxMessages t.arrivals st.msgs st.events
    have hstep : turnStartsOf
        ((processInterventions st.db.status sess.maxMessages t.arrivals st.msgs st.events).2
          ++ [DiscussionEvent.expertTurnStart (expertAt sess st.idx).id
                (expertAt sess st.idx).name (st.idx + 1)])
        = roundRobinStarts sess (st.idx + 1) := by
      rw [turnStartsOf_append, hpiT, h, turnStartsOf_singleton_turnStart,
        roundRobinStarts_succ]
    simp only [discussionLoop]
    split
    · exact ⟨st.idx, hpiT.trans h⟩
    · split
      · split
        · refine ih _ ?_
          rw [turnStartsOf_append, hstep]
          simp
        · refine ⟨st.idx + 1, ?_⟩
          rw [turnStartsOf_append, hstep]
          simp
      · split
        · split
          · refine ih _ ?_
            rw [turnStartsOf_append, hstep]
            simp
          · refine ⟨st.idx + 1, ?_⟩
            rw [turnStartsOf_append, hstep]
            simp
        · split
          · exact ih _ hstep
          · split
            · split
              · refine ih _ ?_
                rw [turnStartsOf_append, hstep]
                simp
              · refine ⟨st.idx + 1, ?_⟩
                rw [turnStartsOf_append, hstep]
                simp
            · split
              · refine ⟨st.idx + 1, ?_⟩
                rw [turnStartsOf_append, turnStartsOf_append, hstep]
                simp
              · refine ih _ ?_
                rw [turnStartsOf_append, hstep]
                simp

theorem discussionLoop_abort_events (env : Env) (sess : Session) (ts : List TurnInput)
    (st st2 : LoopSt) (e : Err)
    (h : discussionLoop env sess ts st = (st2, LoopExit.aborted e)) :
    ∃ pre eid, st2.events = pre ++ [DiscussionEvent.errorEvent e.message (some eid)] := by
  induction ts generalizing st with
  | nil =>
    exact absurd h (by simp [discussionLoop])
  | cons t rest ih =>
    simp only [discussionLoop] at h
    split at h
    · exact absurd h (by simp)
    · split at h
      · split at h
        · exact ih _ h
        · injection h with h1 h2
          injection h2 with h3
          subst h3
          subst h1
          exact ⟨_, (expertAt sess st.idx).id, rfl⟩
      · split at h
        · split at h
          · exact ih _ h
          · injection h with h1 h2
            injection h2 with h3
            subst h3
            subst h1
            exact ⟨_, (expertAt sess st.idx).id, rfl⟩
        · split at h
          · exact ih _ h
          · split at h
            · split at h
              · exact ih _ h
              · injection h with h1 h2
                injection h2 with h3
                subst h3
                subst h1
                exact ⟨_, (expertAt sess st.idx).id, rfl⟩
            · split at h
              · exact absurd h (by simp)
              · exact ih _ h

theorem discussionLoop_consensus_inv (env : Env) (sess : Session) (ts : List TurnInput)
    (st st2 : LoopSt) (ex : LoopExit)
    (hrun : discussionLoop env sess ts st = (st2, ex))
    (hlen : st.msgs.length ≤ sess.maxMessages)
    (hass : ∀ m ∈ st.msgs, m.role = MessageRole.ASSISTANT → detectConsensus m.content = false) :
    (ex = LoopExit.ended false →
      st2.msgs.length = sess.maxMessages ∧
      ∀ m ∈ st2.msgs, m.role = MessageRole.ASSISTANT → detectConsensus m.content = false)
    ∧ (ex = LoopExit.ended true →
      ∃ m ∈ st2.msgs, m.role = MessageRole.ASSISTANT ∧ detectConsensus m.content = true) := by
  induction ts generalizing st with
  | nil =>
    simp only [discussionLoop] at hrun
    injection hrun with h1 h2
    subst h1
    subst h2
    exact ⟨by simp, by simp⟩
  | cons t rest ih =>
    have hpiL := @processInterventions_msgs_len st.db.status
      sess.maxMessages t.arrivals st.msgs st.events hlen
    have hassPi : ∀ m ∈ (processInterventions st.db.status sess.maxMessages
        t.arrivals st.msgs st.events).1,
        m.role = MessageRole.ASSISTANT → detectConsensus m.content = false := by
      intro m hm hr
      rcases processInterventions_msgs_mem t.arrivals st.msgs st.events hm with hin | hrole
      · exact hass m hin hr
      · rw [hrole] at hr
        exact absurd hr (by simp)
    simp only [discussionLoop] at hrun
    split at hrun
    · rename_i hc
      injection hrun with h1 h2
      subst h1
      subst h2
      exact ⟨fun _ => ⟨le_antisymm hpiL hc, hassPi⟩, by simp⟩
    · split at hrun
      · split at hrun
        · exact ih _ hrun hpiL hassPi
        · injection hrun with h1 h2
          subst h1
          subst h2
          exact ⟨by simp, by simp⟩
      · split at hrun
        · split at hrun
          · exact ih _ hrun hpiL hassPi
          · injection hrun with h1 h2
            subst h1
            subst h2
            exact ⟨by simp, by simp⟩
        · rename_i content hllm
          split at hrun
          · exact ih _ hrun hpiL hassPi
          · split at hrun
            · split at hrun
              · exact ih _ hrun hpiL hassPi
              · injection hrun with h1 h2
                subst h1
                subst h2
                exact ⟨by simp, by simp⟩
            · rename_i msgs2 hmc
              obtain ⟨hm2, hlt⟩ := messageCreate_ok_elim hmc
              subst hm2
              split at hrun
              · rename_i hdet
                injection hrun with h1 h2
                subst h1
                subst h2
                refine ⟨by simp, fun _ => ?_⟩
                refine ⟨⟨some (expertAt sess st.idx).id, strTrim content,
                  MessageRole.ASSISTANT, false⟩, by simp, rfl, hdet⟩
              · rename_i hdet
                refine ih _ hrun ?_ ?_
                · simp only [List.length_append, List.length_cons, List.length_nil]
                  omega
                · intro m' hm' hr'
                  rcases List.mem_append.mp hm' with hin | hin
                  · exact hassPi m' hin hr'
                  · simp only [List.mem_singleton] at hin
                    subst hin
                    simp only [Bool.not_eq_true] at hdet
                    exact hdet

/- ## Bridging lemmas for the startDiscussion paths -/

theorem findExpertValidationErr_name {env : Env} {e : Err} :
    ∀ {experts : List Expert}, findExpertValidationErr env experts = some e →
      e.name = "BadRequestException" := by
  intro experts
  induction experts with
  | nil => intro h; exact absurd h (by simp [findExpertValidationErr])
  | cons ex rest ih =>
    intro h
    simp only [findExpertValidationErr] at h
    split at h
    · injection h with h1
      subst h1
      rfl
    · split at h
      · injection h with h1
        subst h1
        rfl
      · exact ih h

theorem startValidation_name {env : Env} {sess : Session} {e : Err}
    (h : startValidation env sess = some e) : e.name = "BadRequestException" := by
  unfold startValidation at h
  split at h
  · injection h with h1
    subst h1
    rfl
  · exact findExpertValidationErr_name h

theorem startValidation_none_nonempty {env : Env} {sess : Session}
    (h : startValidation env sess = none) : sess.experts ≠ [] := by
  unfold startValidation at h
  split at h
  · exact absurd h (by simp)
  · rename_i hlen
    intro hnil
    exact hlen (by simp [hnil])

theorem concludeSession_events_turnStarts (db : DbSession) (c f : Bool) :
    turnStartsOf (concludeSession db c f).2.1 = [] := by
  unfold concludeSession
  split <;> rfl

theorem concludeSession_events_sessionEnded (db : DbSession) (c f : Bool) :
    ((concludeSession db c f).2.1).filter isSessionEndedEvent = [] := by
  unfold concludeSession
  split
  · rfl
  · simp [isSessionEndedEvent]

/- ## Concrete fixtures for counterexamples and witnesses -/

/-- An environment with both provider keys configured. -/
def envOK : Env := ⟨"sk-oai", "sk-ant"⟩

/-- A valid OpenAI-backed expert. -/
def expA : Expert := ⟨1, "Alice", "architecture", "sysA", DriverType.OPENAI, true⟩

/-- A valid Anthropic-backed expert. -/
def expB : Expert := ⟨2, "Bob", "security", "sysB", DriverType.ANTHROPIC, true⟩

/-- A PENDING session with an empty roster. -/
def sessEmpty : Session := ⟨SessionStatus.PENDING, [], 4, false, "problem"⟩

/-- A PENDING session with a single expert and cap 1. -/
def sess1 : Session := ⟨SessionStatus.PENDING, [expA], 1, false, "problem"⟩

/-- A PENDING session with two experts and cap 4. -/
def sess2 : Session := ⟨SessionStatus.PENDING, [expA, expB], 4, false, "problem"⟩

/-- A PENDING session with two experts and cap 1. -/
def sessM1 : Session := ⟨SessionStatus.PENDING, [expA, expB], 1, false, "problem"⟩

/-- A turn whose provider call succeeds with non-consensus content. -/
def okTurn : TurnInput := ⟨[], LLMOutcome.success "alpha", false⟩

/-- A turn whose provider call throws a fatal authentication error. -/
def fatalTurn : TurnInput := ⟨[], LLMOutcome.failure ⟨"LLMAuthenticationException", "bad key"⟩, false⟩

/-- An intervention whose drain insert fails. -/
def ivFail : InterventionSubmission := ⟨"please consider", none, true⟩

/-- An intervention whose drain insert succeeds. -/
def ivOK : InterventionSubmission := ⟨"also", none, false⟩

/- ## Claim theorems -/

/-- C9: queueIntervention on an existing session that is not ACTIVE drops the
intervention with only a warning, leaving the queue unchanged and throwing
nothing (the model is a total function); on an ACTIVE session the item is
appended at the tail of the per-session FIFO queue and the call returns at
once, independent of any drain.  Queueing a batch in submission order
appends it in submission order. -/
theorem queueIntervention_spec :
    (∀ (status : SessionStatus) (q : List InterventionRecord) (content : String)
        (userId : Option Nat),
      queueIntervention status q content userId
        = if status = SessionStatus.ACTIVE then q ++ [⟨content, userId⟩] else q)
    ∧ (∀ (q subs : List InterventionRecord),
      subs.foldl
        (fun acc s => queueIntervention SessionStatus.ACTIVE acc s.content s.userId) q
        = q ++ subs) := by
  constructor
  · intro status q content userId
    unfold queueIntervention
    by_cases h : status = SessionStatus.ACTIVE <;> simp [h]
  · intro q subs
    induction subs generalizing q with
    | nil => simp
    | cons s rest ih =>
      simp only [List.foldl_cons]
      rw [ih]
      simp [queueIntervention]

/-- C8: the retrier classifies an error as retryable exactly when it carries
HTTP status 429, 408 or a 5xx code, or one of the retryable network error
codes; a non-retryable failure is propagated unchanged after exactly one
invocation with no further attempts, at whatever attempt position it occurs;
and the loop moves on to another attempt only when the failed attempt was
retryable and within the attempt and time budgets. -/
theorem retryWithBackoff_classification :
    (∀ e : RetryErr, isRetryableError e = true ↔
      (e.status = some 429 ∨ e.status = some 408 ∨
        (∃ s, e.status = some s ∧ 500 ≤ s ∧ s < 600) ∨
        (∃ c, e.code = some c ∧ c ∈ ["ETIMEDOUT", "ESOCKETTIMEDOUT", "ECONNRESET",
          "ECONNREFUSED", "EAI_AGAIN", "ENOTFOUND"])))
    ∧ (∀ (A : Type) (maxRetries attempt : Nat) (e : RetryErr) (ee : Bool)
        (rest : List (AttemptRec A)),
      isRetryableError e = false →
        retryLoop maxRetries attempt (⟨Except.error e, ee⟩ :: rest)
          = RetryResult.err e (attempt + 1))
    ∧ (∀ (A : Type) (maxRetries attempt : Nat) (r : AttemptRec A)
        (rest : List (AttemptRec A)),
      (∃ e, r.outcome = Except.error e ∧ isRetryableError e = true ∧
        attempt < maxRetries ∧ r.elapsedExceeded = false) ∨
      retryLoop maxRetries attempt (r :: rest)
        = (match r.outcome with
           | Except.ok v => RetryResult.ok v (attempt + 1)
           | Except.error e => RetryResult.err e (attempt + 1))) := by
  refine ⟨?_, ?_, ?_⟩
  · intro e
    obtain ⟨st, cd⟩ := e
    cases st <;> cases cd <;>
      simp [isRetryableError, retryableCodes, List.elem_iff, Bool.or_eq_true,
        Bool.and_eq_true, decide_eq_true_eq] <;>
      tauto
  · intro A maxRetries attempt e ee rest h
    simp [retryLoop, h]
  · intro A maxRetries attempt r rest
    obtain ⟨outcome, ee⟩ := r
    cases outcome with
    | ok v => exact Or.inr (by simp [retryLoop])
    | error e =>
      by_cases h1 : isRetryableError e = true
      · by_cases h2 : attempt < maxRetries
        · cases ee with
          | false => exact Or.inl ⟨e, rfl, h1, h2, rfl⟩
          | true => exact Or.inr (by simp [retryLoop, h1, Nat.not_le.mpr h2])
        · refine Or.inr (by simp [retryLoop, h1, Nat.le_of_not_lt h2])
      · exact Or.inr (by simp [retryLoop, h1])

/-- C8 witness: a 404 failure is not retryable, and the retrier propagates
it unchanged after a single invocation, ignoring the remaining attempts. -/
theorem retryWithBackoff_classification_witness :
    isRetryableError ⟨some 404, none⟩ = false ∧
    retryLoop 6 0 [⟨Except.error ⟨some 404, none⟩, false⟩, ⟨Except.ok 7, false⟩]
      = RetryResult.err ⟨some 404, none⟩ 1 :=
  ⟨by decide,
    retryWithBackoff_classification.2.1 Nat 6 0 ⟨some 404, none⟩ false
      [⟨Except.ok 7, false⟩] (by decide)⟩

theorem startDiscussion_turnStarts_shape (env : Env) (sess : Session) (msgs0 : List Msg)
    (script : Script) :
    ∃ j, turnStartsOf (startDiscussion env sess msgs0 script).events
      = roundRobinStarts sess j := by
  by_cases hst : sess.status = SessionStatus.PENDING
  · have hbase := discussionLoop_turnStarts env sess script.turns
      ⟨⟨SessionStatus.ACTIVE, sess.consensusReached⟩, msgs0, [], 0⟩ rfl
    simp only [startDiscussion, hst, sessionUpdate, validateStatusTransition,
      Option.getD, ne_eq, not_true_eq_false, if_false, reduceCtorEq, reduceIte,
      decide_True, decide_False, Bool.or_true, Bool.true_or, Bool.or_false,
      Bool.false_or, not_false_eq_true, ite_true, ite_false]
    split
    · exact ⟨0, rfl⟩
    · split
      · rename_i st heq
        obtain ⟨j, hj⟩ := hbase
        rw [heq] at hj
        exact ⟨j, hj⟩
      · rename_i st e heq
        obtain ⟨j, hj⟩ := hbase
        rw [heq] at hj
        refine ⟨j, ?_⟩
        rw [turnStartsOf_append]
        simpa using hj
      · rename_i st c heq
        obtain ⟨j, hj⟩ := hbase
        rw [heq] at hj
        refine ⟨j, ?_⟩
        rw [turnStartsOf_append, turnStartsOf_append,
          concludeSession_events_turnStarts]
        simpa using hj
  · refine ⟨0, ?_⟩
    unfold startDiscussion
    rw [if_pos hst]
    rfl

/-- C5: in every run, the k-th emitted ExpertTurnStart event (zero-based
turn counter k) names expert roster[k mod N] in original join order and
carries turnNumber k+1, so with N greater or equal 2 experts and no errors
the turn order is strictly round-robin, repeating every N turns. -/
theorem startDiscussion_roundRobin (env : Env) (sess : Session) (msgs0 : List Msg)
    (script : Script) (hN : 2 ≤ sess.experts.length) (k : Nat)
    (hk : k < (turnStartsOf (startDiscussion env sess msgs0 script).events).length) :
    (turnStartsOf (startDiscussion env sess msgs0 script).events).getD k (0, "", 0)
      = ((sess.experts.getD (k % sess.experts.length) defaultExpert).id,
         (sess.experts.getD (k % sess.experts.length) defaultExpert).name, k + 1) := by
  obtain ⟨j, hj⟩ := startDiscussion_turnStarts_shape env sess msgs0 script
  rw [hj] at hk ⊢
  have hkj : k < j := by simpa [roundRobinStarts] using hk
  rw [List.getD_eq_getElem _ _ (by simpa [roundRobinStarts] using hkj)]
  simp [roundRobinStarts, expertAt]

/-- C5 witness: in a clean 3-turn run over the two-expert roster of sess2,
the third ExpertTurnStart (k = 2) is again expert roster[0] with
turnNumber 3. -/
theorem startDiscussion_roundRobin_witness :
    (turnStartsOf (startDiscussion envOK sess2 []
        ⟨[okTurn, okTurn, okTurn], false, false⟩).events).getD 2 (0, "", 0)
      = ((sess2.experts.getD (2 % sess2.experts.length) defaultExpert).id,
         (sess2.experts.getD (2 % sess2.experts.length) defaultExpert).name, 3) :=
  startDiscussion_roundRobin envOK sess2 [] ⟨[okTurn, okTurn, okTurn], false, false⟩
    (by decide) 2 (by decide)

/-- C3: starting from a fresh (empty) message list, the persisted message
count of a run never exceeds maxMessages, and the loop exits with its
consensusReached variable false exactly when the run ended normally with the
message count at exactly maxMessages and no created ASSISTANT message whose
content contains a consensus phrase. -/
theorem startDiscussion_messageCap (env : Env) (sess : Session) (msgs0 : List Msg)
    (script : Script) (h0 : msgs0 = []) :
    (startDiscussion env sess msgs0 script).msgs.length ≤ sess.maxMessages ∧
    ((startDiscussion env sess msgs0 script).loopConsensus = some false ↔
      ((startDiscussion env sess msgs0 script).loopConsensus ≠ none ∧
       (startDiscussion env sess msgs0 script).msgs.length = sess.maxMessages ∧
       ∀ m ∈ (startDiscussion env sess msgs0 script).msgs,
         m.role = MessageRole.ASSISTANT → detectConsensus m.content = false)) := by
  subst h0
  by_cases hst : sess.status = SessionStatus.PENDING
  · simp only [startDiscussion, hst, sessionUpdate, validateStatusTransition,
      Option.getD, ne_eq, not_true_eq_false, if_false, reduceCtorEq, reduceIte,
      decide_True, decide_False, Bool.or_true, Bool.true_or, Bool.or_false,
      Bool.false_or, not_false_eq_true, ite_true, ite_false]
    split
    · exact ⟨by simp, by simp⟩
    · split
      · rename_i st heq
        refine ⟨?_, by simp⟩
        have hlen := discussionLoop_msgs_len env sess script.turns
          ⟨⟨SessionStatus.ACTIVE, sess.consensusReached⟩, [], [], 0⟩ (by simp)
        rw [heq] at hlen
        exact hlen
      · rename_i st e heq
        refine ⟨?_, by simp⟩
        have hlen := discussionLoop_msgs_len env sess script.turns
          ⟨⟨SessionStatus.ACTIVE, sess.consensusReached⟩, [], [], 0⟩ (by simp)
        rw [heq] at hlen
        exact hlen
      · rename_i st c heq
        have hlen := discussionLoop_msgs_len env sess script.turns
          ⟨⟨SessionStatus.ACTIVE, sess.consensusReached⟩, [], [], 0⟩ (by simp)
        rw [heq] at hlen
        have hinv := discussionLoop_consensus_inv env sess script.turns
          ⟨⟨SessionStatus.ACTIVE, sess.consensusReached⟩, [], [], 0⟩ st
          (LoopExit.ended c) heq (by simp) (by simp)
        refine ⟨hlen, ?_⟩
        cases c with
        | false =>
          obtain ⟨hlen2, hass2⟩ := hinv.1 rfl
          exact iff_of_true rfl ⟨by simp, hlen2, hass2⟩
        | true =>
          obtain ⟨m, hm, hrole, hdet⟩ := hinv.2 rfl
          constructor
          · intro hx
            exact absurd hx (by simp)
          · rintro ⟨-, -, hall⟩
            have := hall m hm hrole
            rw [hdet] at this
            exact absurd this (by simp)
  · unfold startDiscussion
    rw [if_pos hst]
    exact ⟨by simp, by simp⟩

/-- C3 witness: the cap bound and the termination characterization at a
concrete run of a two-expert session with cap 1 that ends at the limit. -/
theorem startDiscussion_messageCap_witness :
    (startDiscussion envOK sessM1 [] ⟨[okTurn, okTurn], false, false⟩).msgs.length
      ≤ sessM1.maxMessages ∧
    ((startDiscussion envOK sessM1 [] ⟨[okTurn, okTurn], false, false⟩).loopConsensus
        = some false ↔
      ((startDiscussion envOK sessM1 [] ⟨[okTurn, okTurn], false, false⟩).loopConsensus
          ≠ none ∧
       (startDiscussion envOK sessM1 [] ⟨[okTurn, okTurn], false, false⟩).msgs.length
          = sessM1.maxMessages ∧
       ∀ m ∈ (startDiscussion envOK sessM1 [] ⟨[okTurn, okTurn], false, false⟩).msgs,
         m.role = MessageRole.ASSISTANT → detectConsensus m.content = false)) :=
  startDiscussion_messageCap envOK sessM1 [] ⟨[okTurn, okTurn], false, false⟩ rfl

/-- C10: when the finalize write fails after a normal loop exit, the run
still emits SessionEnded, still returns a session snapshot and does not
throw; the returned snapshot reflects the un-updated persisted record,
reading ACTIVE with the consensus flag still at its initial false, and an
Error event for the failed write is emitted just before SessionEnded. -/
theorem startDiscussion_finalizeFailure (env : Env) (sess : Session) (msgs0 : List Msg)
    (script : Script) (c : Bool)
    (hpend : sess.status = SessionStatus.PENDING)
    (hcons0 : sess.consensusReached = false)
    (hff : script.finalizeFails = true)
    (hloop : (startDiscussion env sess msgs0 script).loopConsensus = some c) :
    (∃ snap : Session,
      (startDiscussion env sess msgs0 script).outcome = StartOutcome.ok snap ∧
      snap.status = SessionStatus.ACTIVE ∧ snap.consensusReached = false) ∧
    (startDiscussion env sess msgs0 script).db.status = SessionStatus.ACTIVE ∧
    (∃ pre reason n, (startDiscussion env sess msgs0 script).events
      = pre ++ [DiscussionEvent.errorEvent "Failed to update session" none,
                DiscussionEvent.sessionEnded c reason n]) := by
  revert hloop
  simp only [startDiscussion, hpend, sessionUpdate, validateStatusTransition,
    Option.getD, ne_eq, not_true_eq_false, if_false, reduceCtorEq, reduceIte,
    decide_True, decide_False, Bool.or_true, Bool.true_or, Bool.or_false,
    Bool.false_or, not_false_eq_true, ite_true, ite_false]
  split
  · intro hloop
    exact absurd hloop (by simp)
  · split
    · intro hloop
      exact absurd hloop (by simp)
    · intro hloop
      exact absurd hloop (by simp)
    · rename_i st c2 heq
      intro hloop
      have hc2 : c2 = c := by
        injection hloop
      subst hc2
      have hdb := discussionLoop_db env sess script.turns
        ⟨⟨SessionStatus.ACTIVE, sess.consensusReached⟩, msgs0, [], 0⟩
      rw [heq] at hdb
      have hdb2 : st.db = ⟨SessionStatus.ACTIVE, sess.consensusReached⟩ := hdb
      rw [hdb2, hcons0, hff]
      refine ⟨⟨_, rfl, rfl, rfl⟩, rfl,
        ⟨st.events,
          (if c2 = true then "consensus"
           else if sess.maxMessages ≤ st.msgs.length then "max_messages"
           else "cancelled"),
          st.msgs.length, ?_⟩⟩
      show st.events ++ [DiscussionEvent.errorEvent "Failed to update session" none]
          ++ [DiscussionEvent.sessionEnded c2 _ st.msgs.length] = _
      simp

/-- C10 witness: a concrete limit-terminated run with a failing finalize
write returns an ACTIVE snapshot and ends its event trace with the finalize
Error followed by SessionEnded. -/
theorem startDiscussion_finalizeFailure_witness :
    (∃ snap : Session,
      (startDiscussion envOK sessM1 [] ⟨[okTurn, okTurn], true, false⟩).outcome
        = StartOutcome.ok snap ∧
      snap.status = SessionStatus.ACTIVE ∧ snap.consensusReached = false) ∧
    (startDiscussion envOK sessM1 [] ⟨[okTurn, okTurn], true, false⟩).db.status
      = SessionStatus.ACTIVE ∧
    (∃ pre reason n,
      (startDiscussion envOK sessM1 [] ⟨[okTurn, okTurn], true, false⟩).events
        = pre ++ [DiscussionEvent.errorEvent "Failed to update session" none,
                  DiscussionEvent.sessionEnded false reason n]) :=
  startDiscussion_finalizeFailure envOK sessM1 [] ⟨[okTurn, okTurn], true, false⟩ false
    rfl rfl rfl (by decide)

/-- C1 (amended): a startDiscussion call on a session that is not PENDING is
rejected before the try block: no status write, no event, no message, and
the caller receives a BadRequestException, the persisted record being left
exactly as it was.  A call on a PENDING session that fails pre-validation
(empty roster, invalid expert config, or unconstructible driver) creates no
message and throws the descriptive BadRequestException produced by the
validation, but the outer catch first emits one session-scoped Error event
and transitions the session from PENDING to CANCELLED (when the cancel
write itself succeeds), rather than leaving it PENDING. -/
theorem startDiscussion_validationFailure (env : Env) (sess : Session)
    (msgs0 : List Msg) (script : Script) :
    (sess.status ≠ SessionStatus.PENDING →
      (∃ e, (startDiscussion env sess msgs0 script).outcome = StartOutcome.err e ∧
        e.name = "BadRequestException") ∧
      (startDiscussion env sess msgs0 script).db
        = ⟨sess.status, sess.consensusReached⟩ ∧
      (startDiscussion env sess msgs0 script).msgs = msgs0 ∧
      (startDiscussion env sess msgs0 script).events = [] ∧
      (startDiscussion env sess msgs0 script).statusWrites = [])
    ∧ (∀ e, sess.status = SessionStatus.PENDING →
        startValidation env sess = some e →
        script.cancelFails = false →
      (startDiscussion env sess msgs0 script).outcome = StartOutcome.err e ∧
      e.name = "BadRequestException" ∧
      (startDiscussion env sess msgs0 script).msgs = msgs0 ∧
      (startDiscussion env sess msgs0 script).events
        = [DiscussionEvent.errorEvent e.message none] ∧
      (startDiscussion env sess msgs0 script).db.status = SessionStatus.CANCELLED ∧
      (startDiscussion env sess msgs0 script).statusWrites
        = [SessionStatus.CANCELLED]) := by
  constructor
  · intro hst
    unfold startDiscussion
    rw [if_pos hst]
    exact ⟨⟨_, rfl, rfl⟩, rfl, rfl, rfl, rfl⟩
  · intro e hst hval hcf
    have hname := startValidation_name hval
    unfold startDiscussion
    rw [if_neg (by simp [hst]), hval, hcf]
    refine ⟨rfl, hname, rfl, rfl, ?_, ?_⟩
    · rw [hst]
      rfl
    · rw [hst]
      rfl

/-- C1 counterexample: starting a PENDING session whose roster is empty is a
validation failure, yet the session does not stay PENDING and events are
emitted: the run cancels the session and emits an Error event. -/
theorem startDiscussion_validationFailure_counterexample :
    sessEmpty.status = SessionStatus.PENDING ∧
    sessEmpty.experts = [] ∧
    (startDiscussion envOK sessEmpty [] ⟨[], false, false⟩).db.status
      = SessionStatus.CANCELLED ∧
    (startDiscussion envOK sessEmpty [] ⟨[], false, false⟩).events ≠ [] := by
  refine ⟨rfl, rfl, rfl, ?_⟩
  decide

/-- C1 witness: both amended branches applied at concrete inputs: an ACTIVE
session is rejected untouched, and a PENDING session with an empty roster is
cancelled with a single Error event. -/
theorem startDiscussion_validationFailure_witness :
    ((∃ e, (startDiscussion envOK
        ⟨SessionStatus.ACTIVE, [expA, expB], 4, false, "problem"⟩ [] ⟨[], false, false⟩).outcome
          = StartOutcome.err e ∧ e.name = "BadRequestException") ∧
      (startDiscussion envOK ⟨SessionStatus.ACTIVE, [expA, expB], 4, false, "problem"⟩
          [] ⟨[], false, false⟩).db = ⟨SessionStatus.ACTIVE, false⟩ ∧
      (startDiscussion envOK ⟨SessionStatus.ACTIVE, [expA, expB], 4, false, "problem"⟩
          [] ⟨[], false, false⟩).msgs = [] ∧
      (startDiscussion envOK ⟨SessionStatus.ACTIVE, [expA, expB], 4, false, "problem"⟩
          [] ⟨[], false, false⟩).events = [] ∧
      (startDiscussion envOK ⟨SessionStatus.ACTIVE, [expA, expB], 4, false, "problem"⟩
          [] ⟨[], false, false⟩).statusWrites = []) ∧
    ((startDiscussion envOK sessEmpty [] ⟨[], false, false⟩).outcome
        = StartOutcome.err (validationErr
            "Cannot start discussion for session with no experts. Session must have at least one expert.") ∧
      (startDiscussion envOK sessEmpty [] ⟨[], false, false⟩).events
        = [DiscussionEvent.errorEvent
            "Cannot start discussion for session with no experts. Session must have at least one expert." none] ∧
      (startDiscussion envOK sessEmpty [] ⟨[], false, false⟩).db.status
        = SessionStatus.CANCELLED ∧
      (startDiscussion envOK sessEmpty [] ⟨[], false, false⟩).statusWrites
        = [SessionStatus.CANCELLED]) := by
  constructor
  · exact (startDiscussion_validationFailure envOK
      ⟨SessionStatus.ACTIVE, [expA, expB], 4, false, "problem"⟩ [] ⟨[], false, false⟩).1
      (by decide)
  · have h := (startDiscussion_validationFailure envOK sessEmpty [] ⟨[], false, false⟩).2
      (validationErr
        "Cannot start discussion for session with no experts. Session must have at least one expert.")
      rfl (by decide) rfl
    exact ⟨h.1, h.2.2.2.1, h.2.2.2.2.1, h.2.2.2.2.2⟩

/-- C2 (amended): when a validated run aborts because an expert turn raised
a fatal (non-transient) error, the failure appends exactly two Error events
and nothing else: the expert-scoped Error emitted by the per-turn catch,
directly followed by the session-scoped Error emitted by the outer catch.
No SessionEnded event is emitted anywhere in the run (so in particular no
MessageCreated or any other event follows the failure), the session status
is set to CANCELLED (when the cancel write succeeds), and the error is
propagated to the startDiscussion caller. -/
theorem startDiscussion_fatalError (env : Env) (sess : Session) (msgs0 : List Msg)
    (script : Script) (e : Err)
    (hpend : sess.status = SessionStatus.PENDING)
    (hval : startValidation env sess = none)
    (hcf : script.cancelFails = false)
    (herr : (startDiscussion env sess msgs0 script).outcome = StartOutcome.err e) :
    (∃ pre eid, (startDiscussion env sess msgs0 script).events
      = pre ++ [DiscussionEvent.errorEvent e.message (some eid),
                DiscussionEvent.errorEvent e.message none]) ∧
    ((startDiscussion env sess msgs0 script).events).filter isSessionEndedEvent = [] ∧
    (startDiscussion env sess msgs0 script).db.status = SessionStatus.CANCELLED := by
  revert herr
  simp only [startDiscussion, hpend, hval, sessionUpdate, validateStatusTransition,
    Option.getD, ne_eq, not_true_eq_false, if_false, reduceCtorEq, reduceIte,
    decide_True, decide_False, Bool.or_true, Bool.true_or, Bool.or_false,
    Bool.false_or, not_false_eq_true, ite_true, ite_false]
  split
  · intro herr
    exact absurd herr (by simp)
  · rename_i st e2 heq
    intro herr
    have he2 : e2 = e := by
      injection herr
    rw [← he2]
    have hdb := discussionLoop_db env sess script.turns
      ⟨⟨SessionStatus.ACTIVE, sess.consensusReached⟩, msgs0, [], 0⟩
    rw [heq] at hdb
    have hdb2 : st.db = ⟨SessionStatus.ACTIVE, sess.consensusReached⟩ := hdb
    have hfil := discussionLoop_events_sessionEnded env sess script.turns
      ⟨⟨SessionStatus.ACTIVE, sess.consensusReached⟩, msgs0, [], 0⟩
    rw [heq] at hfil
    obtain ⟨pre, eid, hev⟩ := discussionLoop_abort_events env sess script.turns
      ⟨⟨SessionStatus.ACTIVE, sess.consensusReached⟩, msgs0, [], 0⟩ st e2 heq
    rw [hcf, hdb2]
    refine ⟨⟨pre, eid, ?_⟩, ?_, rfl⟩
    · show st.events ++ [DiscussionEvent.errorEvent e2.message none] = _
      rw [hev]
      simp
    · show (st.events ++ [DiscussionEvent.errorEvent e2.message none]).filter
        isSessionEndedEvent = []
      rw [List.filter_append]
      have hfil2 : st.events.filter isSessionEndedEvent = [] := hfil
      rw [hfil2]
      simp [isSessionEndedEvent]
  · rename_i st c heq
    intro herr
    exact absurd herr (by simp)

/-- C2 counterexample: a clean two-expert run whose first turn throws a
fatal authentication error emits two Error events and zero SessionEnded
events, refuting the claimed exactly-one-of-each shape. -/
theorem startDiscussion_fatalError_counterexample :
    ((startDiscussion envOK sess2 [] ⟨[fatalTurn], false, false⟩).events.filter
        isErrorEvent).length = 2 ∧
    ((startDiscussion envOK sess2 [] ⟨[fatalTurn], false, false⟩).events.filter
        isSessionEndedEvent).length = 0 ∧
    (startDiscussion envOK sess2 [] ⟨[fatalTurn], false, false⟩).outcome
      = StartOutcome.err ⟨"LLMAuthenticationException", "bad key"⟩ ∧
    (startDiscussion envOK sess2 [] ⟨[fatalTurn], false, false⟩).db.status
      = SessionStatus.CANCELLED := by
  decide

/-- C2 witness: the amended description applied at the same concrete fatal
run: the trace ends with the expert-scoped and session-scoped Error pair, no
SessionEnded is emitted and the session is cancelled. -/
theorem startDiscussion_fatalError_witness :
    (∃ pre eid, (startDiscussion envOK sess2 [] ⟨[fatalTurn], false, false⟩).events
      = pre ++ [DiscussionEvent.errorEvent "bad key" (some eid),
                DiscussionEvent.errorEvent "bad key" none]) ∧
    ((startDiscussion envOK sess2 [] ⟨[fatalTurn], false, false⟩).events).filter
      isSessionEndedEvent = [] ∧
    (startDiscussion envOK sess2 [] ⟨[fatalTurn], false, false⟩).db.status
      = SessionStatus.CANCELLED :=
  startDiscussion_fatalError envOK sess2 [] ⟨[fatalTurn], false, false⟩
    ⟨"LLMAuthenticationException", "bad key"⟩ rfl (by decide) rfl (by decide)

theorem tryCancelStatus_writes (db : DbSession) (f : Bool) :
    (tryCancelStatus db f).2 = [SessionStatus.CANCELLED] ∨ (tryCancelStatus db f).2 = [] := by
  unfold tryCancelStatus
  split
  · exact Or.inl rfl
  · exact Or.inr rfl

/-- C6 (amended): startDiscussion itself only guards against an empty
roster: a status write to ACTIVE implies the roster is non-empty, and a
session with a single expert is activated (see the counterexample).  The
roster-size-at-least-2 rule for sessions is enforced upstream, at session
creation, by the ArrayMinSize(2) constraint of CreateSessionDto; sessions
admitted by that rule have at least 2 experts, which is what makes the
roster-at-least-2-once-ACTIVE invariant hold system-wide. -/
theorem startDiscussion_activationGuard :
    (∀ (env : Env) (sess : Session) (msgs0 : List Msg) (script : Script),
      SessionStatus.ACTIVE ∈ (startDiscussion env sess msgs0 script).statusWrites →
        sess.experts ≠ [])
    ∧ (∀ ids : List Nat, createSessionRosterSizeValid ids = true → 2 ≤ ids.length) := by
  constructor
  · intro env sess msgs0 script hmem
    by_cases hst : sess.status = SessionStatus.PENDING
    · cases hval : startValidation env sess with
      | none => exact startValidation_none_nonempty hval
      | some e =>
        revert hmem
        unfold startDiscussion
        rw [if_neg (by simp [hst]), hval]
        intro hmem
        rcases tryCancelStatus_writes ⟨sess.status, sess.consensusReached⟩
            script.cancelFails with hw | hw
        · have hmem2 : SessionStatus.ACTIVE ∈ [SessionStatus.CANCELLED] := hw ▸ hmem
          exact absurd hmem2 (by simp)
        · have hmem2 : SessionStatus.ACTIVE ∈ ([] : List SessionStatus) := hw ▸ hmem
          exact absurd hmem2 (by simp)
    · revert hmem
      unfold startDiscussion
      rw [if_pos hst]
      intro hmem
      exact absurd hmem (by simp)
  · intro ids h
    unfold createSessionRosterSizeValid at h
    simp only [Bool.and_eq_true, decide_eq_true_eq] at h
    exact h.1

/-- C6 counterexample: a PENDING session with exactly one expert passes the
validation of startDiscussion and is transitioned to ACTIVE (its run even
completes), refuting that startDiscussion never activates a roster of fewer
than 2 experts. -/
theorem startDiscussion_activationGuard_counterexample :
    sess1.experts.length = 1 ∧
    sess1.experts.length < 2 ∧
    SessionStatus.ACTIVE
      ∈ (startDiscussion envOK sess1 [] ⟨[okTurn, okTurn], false, false⟩).statusWrites := by
  refine ⟨rfl, by decide, ?_⟩
  decide

/-- C6 witness: the amended guard applied at concrete inputs: an activating
run implies a non-empty roster, and a roster passing the creation-time rule
has at least 2 members. -/
theorem startDiscussion_activationGuard_witness :
    sess2.experts ≠ [] ∧ 2 ≤ ([5, 7] : List Nat).length :=
  ⟨startDiscussion_activationGuard.1 envOK sess2 [] ⟨[okTurn], false, false⟩ (by decide),
   startDiscussion_activationGuard.2 [5, 7] (by decide)⟩

/-- C7 (amended): persistence failures are handled asymmetrically.  A failed
message insert during an expert turn surfaces as an
InternalServerErrorException, which the per-turn catch classifies as fatal
(it is not one of the transient LLM exception names), so the discussion loop
aborts at that turn.  A failed insert while draining a queued intervention,
however, is caught inside processInterventions: an Error event is emitted
and the drain continues with the remaining queue (and the loop with the next
turn), rather than aborting. -/
theorem persistenceFailure_handling :
    (∀ (env : Env) (sess : Session) (t : TurnInput) (rest : List TurnInput)
        (st : LoopSt) (content : String),
      st.db.status = SessionStatus.ACTIVE →
      t.llm = LLMOutcome.success content →
      ¬ strTrim content = "" →
      t.createFails = true →
      ¬ sess.maxMessages ≤
        ((processInterventions SessionStatus.ACTIVE sess.maxMessages
          t.arrivals st.msgs st.events).1).length →
      createDriver env (expertAt sess st.idx).driverType = Except.ok () →
      (discussionLoop env sess (t :: rest) st).2
        = LoopExit.aborted ⟨"InternalServerErrorException", "Failed to create message"⟩)
    ∧ (∀ (d : SessionStatus) (mx : Nat) (iv : InterventionSubmission)
        (rest : List InterventionSubmission) (ms : List Msg)
        (es : List DiscussionEvent) (e : Err),
      messageCreate d mx ms ⟨none, iv.content, MessageRole.USER, true⟩ iv.dbFail
        = Except.error e →
      processInterventions d mx (iv :: rest) ms es
        = processInterventions d mx rest ms
            (es ++ [DiscussionEvent.errorEvent e.message none])) := by
  constructor
  · intro env sess t rest st content hact hllm htrim hcf hcount hdrv
    have hmc : messageCreate SessionStatus.ACTIVE sess.maxMessages
        ((processInterventions SessionStatus.ACTIVE sess.maxMessages
          t.arrivals st.msgs st.events).1)
        ⟨some (expertAt sess st.idx).id, strTrim content, MessageRole.ASSISTANT, false⟩ true
        = Except.error ⟨"InternalServerErrorException", "Failed to create message"⟩ := by
      unfold messageCreate
      rw [if_neg (by simp), if_neg hcount]
      simp
    simp only [discussionLoop, hact, hllm, hcf, hdrv]
    rw [if_neg hcount, if_neg htrim]
    simp only [hmc]
    rw [if_neg (by decide)]
  · intro d mx iv rest ms es e h
    simp only [processInterventions, h]

/-- C7 counterexample: a run in which the first intervention insert fails
continues instead of aborting: the following intervention is still drained
into a USER message and the next expert turn still starts. -/
theorem interventionDrainFailure_counterexample :
    (startDiscussion envOK sess2 []
      ⟨[⟨[ivFail, ivOK], LLMOutcome.success "fine", false⟩, okTurn, okTurn, okTurn],
        false, false⟩).events.take 3
      = [DiscussionEvent.errorEvent "Failed to create message" none,
         DiscussionEvent.messageCreated ⟨none, "also", MessageRole.USER, true⟩,
         DiscussionEvent.expertTurnStart 1 "Alice" 1] ∧
    (∃ snap, (startDiscussion envOK sess2 []
      ⟨[⟨[ivFail, ivOK], LLMOutcome.success "fine", false⟩, okTurn, okTurn, okTurn],
        false, false⟩).outcome = StartOutcome.ok snap) := by
  refine ⟨by decide, ⟨_, rfl⟩⟩

/-- C7 witness: both amended behaviors at concrete inputs: a turn whose
insert fails aborts the loop with the InternalServerErrorException, and a
drain whose first insert fails continues with the rest of the queue after
emitting an Error event. -/
theorem persistenceFailure_handling_witness :
    (discussionLoop envOK sess2
        [⟨[], LLMOutcome.success "fine", true⟩]
        ⟨⟨SessionStatus.ACTIVE, false⟩, [], [], 0⟩).2
      = LoopExit.aborted ⟨"InternalServerErrorException", "Failed to create message"⟩ ∧
    processInterventions SessionStatus.ACTIVE 4 [ivFail, ivOK] [] []
      = processInterventions SessionStatus.ACTIVE 4 [ivOK] []
          [DiscussionEvent.errorEvent "Failed to create message" none] :=
  ⟨persistenceFailure_handling.1 envOK sess2 ⟨[], LLMOutcome.success "fine", true⟩ []
      ⟨⟨SessionStatus.ACTIVE, false⟩, [], [], 0⟩ "fine" rfl rfl (by decide) rfl
      (by decide) rfl,
   persistenceFailure_handling.2 SessionStatus.ACTIVE 4 ivFail [ivOK] [] []
      ⟨"InternalServerErrorException", "Failed to create message"⟩ rfl⟩
